import Mathlib

/-!
Verification of the close-approach filter module (`src/filters.py`) and the
standalone trie (`src/excellent.py`) of the repository.

The Python code is shallowly embedded: Python's dynamically typed attribute
values become the sum type `PyVal`, the `operator` module comparators used by
the code (`eq`, `le`, `ge`) become `CAOp`, exceptions become `Except PyErr`,
the `AttributeFilter` class hierarchy becomes a record tagged with a
`FilterKind` (one tag per concrete subclass, plus `base` for the unspecialised
superclass whose `get` raises `UnsupportedCriterionError`), and Python
truthiness tests in `create_filters` are translated literally (a `date` object
is always truthy, a number is truthy iff nonzero, `None` is falsy).
-/

namespace NeoFilters

/-- Python exceptions raised by the embedded code: `UnsupportedCriterionError`
(a `NotImplementedError` subclass raised by the base `AttributeFilter.get`),
`TypeError` (raised by Python ordering comparisons between unrelated types)
and `ValueError` (raised by `itertools.islice` on a negative stop). -/
inductive PyErr where
  | unsupportedCriterion
  | typeError
  | valueError
deriving DecidableEq

/-- A calendar date, as produced by `datetime.date`. -/
structure CADate where
  year : Int
  month : Nat
  day : Nat
deriving DecidableEq

/-- A timestamp as produced by `datetime.datetime`: the calendar-date portion
(what Python's `.date()` returns) together with the time-of-day portion. -/
structure CADatetime where
  date : CADate
  hour : Nat
  minute : Nat
  second : Nat
deriving DecidableEq

/-- The fields of a `NearEarthObject` read by the filters. -/
structure Neo where
  hazardous : Bool
  diameter : ℚ
deriving DecidableEq

/-- The fields of a `CloseApproach` read by the filters, including the
reference to its associated NEO. -/
structure CloseApproach where
  time : CADatetime
  distance : ℚ
  velocity : ℚ
  neo : Neo
deriving DecidableEq

/-- The comparators from Python's `operator` module that `create_filters`
uses: `operator.eq`, `operator.le`, `operator.ge`. -/
inductive CAOp where
  | eq
  | le
  | ge
deriving DecidableEq

/-- A dynamically typed Python value flowing through a filter: a calendar
date, a number, or a boolean. -/
inductive PyVal where
  | vdate : CADate → PyVal
  | vnum : ℚ → PyVal
  | vbool : Bool → PyVal
deriving DecidableEq

/-- Python's ordering on `datetime.date`: lexicographic on
(year, month, day). -/
def dateLe (a b : CADate) : Bool :=
  if a.year ≠ b.year then decide (a.year < b.year)
  else if a.month ≠ b.month then decide (a.month < b.month)
  else decide (a.day ≤ b.day)

/-- Applying one of the three comparators to two Python values. Equality is
value equality within a type and false across types; ordering comparisons
across unrelated types raise `TypeError`. Booleans order as the integers 0
and 1. (The filters only ever compare same-typed values, so the cross-type
edge of `==` between booleans and numbers is not exercised.) -/
def applyOp (op : CAOp) (x y : PyVal) : Except PyErr Bool :=
  match op, x, y with
  | .eq, x, y => .ok (decide (x = y))
  | .le, .vdate a, .vdate b => .ok (dateLe a b)
  | .le, .vnum a, .vnum b => .ok (decide (a ≤ b))
  | .le, .vbool a, .vbool b => .ok (!a || b)
  | .ge, .vdate a, .vdate b => .ok (dateLe b a)
  | .ge, .vnum a, .vnum b => .ok (decide (b ≤ a))
  | .ge, .vbool a, .vbool b => .ok (a || !b)
  | _, _, _ => .error .typeError

/-- One tag per `AttributeFilter` class: the unspecialised base class and its
five concrete subclasses. -/
inductive FilterKind where
  | base
  | time
  | distance
  | velocity
  | hazardous
  | diameter
deriving DecidableEq

/-- An `AttributeFilter` instance: which class it is, the comparator stored as
`self.operator`, and the reference value stored as `self.value`. -/
structure AttributeFilter where
  kind : FilterKind
  operator : CAOp
  value : PyVal
deriving DecidableEq

/-- Constructor of the `TimeFilter` subclass. -/
def TimeFilter (op : CAOp) (value : PyVal) : AttributeFilter :=
  ⟨FilterKind.time, op, value⟩

/-- Constructor of the `DistanceFilter` subclass. -/
def DistanceFilter (op : CAOp) (value : PyVal) : AttributeFilter :=
  ⟨FilterKind.distance, op, value⟩

/-- Constructor of the `VelocityFilter` subclass. -/
def VelocityFilter (op : CAOp) (value : PyVal) : AttributeFilter :=
  ⟨FilterKind.velocity, op, value⟩

/-- Constructor of the `HazardousFilter` subclass. -/
def HazardousFilter (op : CAOp) (value : PyVal) : AttributeFilter :=
  ⟨FilterKind.hazardous, op, value⟩

/-- Constructor of the `DiameterFilter` subclass. -/
def DiameterFilter (op : CAOp) (value : PyVal) : AttributeFilter :=
  ⟨FilterKind.diameter, op, value⟩

/-- The `get` classmethod, dispatched on the class of the filter. The base
class raises `UnsupportedCriterionError`; `TimeFilter` returns
`approach.time.date()`; `DistanceFilter` returns `approach.distance`;
`VelocityFilter` returns `approach.velocity`; `HazardousFilter` returns
`approach.neo.hazardous`; `DiameterFilter` returns `approach.neo.diameter`. -/
def get (kind : FilterKind) (approach : CloseApproach) : Except PyErr PyVal :=
  match kind with
  | .base => .error .unsupportedCriterion
  | .time => .ok (.vdate approach.time.date)
  | .distance => .ok (.vnum approach.distance)
  | .velocity => .ok (.vnum approach.velocity)
  | .hazardous => .ok (.vbool approach.neo.hazardous)
  | .diameter => .ok (.vnum approach.neo.diameter)

/-- The `__call__` method: `self.operator(self.get(approach), self.value)`.
An exception raised by `get` propagates. -/
def call (f : AttributeFilter) (approach : CloseApproach) : Except PyErr Bool :=
  match get f.kind approach with
  | .error e => .error e
  | .ok x => applyOp f.operator x f.value

/-- The `create_filters` function. Each local `X_filter_f` mirrors one
`Filter(op, v) if v else None` line of the source; Python truthiness makes a
present `date` always truthy, a number truthy iff nonzero, and `None` falsy.
The hazardous line tests `hazardous is not None` instead. The final list
comprehension `[i for i in filter_arr if i]` keeps the non-`None` entries. -/
def create_filters (date start_date end_date : Option CADate)
    (distance_min distance_max velocity_min velocity_max : Option ℚ)
    (diameter_min diameter_max : Option ℚ) (hazardous : Option Bool) :
    List AttributeFilter :=
  let date_filter_f : Option AttributeFilter :=
    match date with
    | some d => some (TimeFilter .eq (.vdate d))
    | none => none
  let date_start_filter_f : Option AttributeFilter :=
    match start_date with
    | some d => some (TimeFilter .ge (.vdate d))
    | none => none
  let date_end_filter_f : Option AttributeFilter :=
    match end_date with
    | some d => some (TimeFilter .le (.vdate d))
    | none => none
  let distance_min_filter_f : Option AttributeFilter :=
    match distance_min with
    | some q => if q = 0 then none else some (DistanceFilter .ge (.vnum q))
    | none => none
  let distance_max_filter_f : Option AttributeFilter :=
    match distance_max with
    | some q => if q = 0 then none else some (DistanceFilter .le (.vnum q))
    | none => none
  let velocity_min_filter_f : Option AttributeFilter :=
    match velocity_min with
    | some q => if q = 0 then none else some (VelocityFilter .ge (.vnum q))
    | none => none
  let velocity_max_filter_f : Option AttributeFilter :=
    match velocity_max with
    | some q => if q = 0 then none else some (VelocityFilter .le (.vnum q))
    | none => none
  let diameter_min_filter_f : Option AttributeFilter :=
    match diameter_min with
    | some q => if q = 0 then none else some (DiameterFilter .ge (.vnum q))
    | none => none
  let diameter_max_filter_f : Option AttributeFilter :=
    match diameter_max with
    | some q => if q = 0 then none else some (DiameterFilter .le (.vnum q))
    | none => none
  let hazardous_filter_f : Option AttributeFilter :=
    match hazardous with
    | some b => some (HazardousFilter .eq (.vbool b))
    | none => none
  let filter_arr : List (Option AttributeFilter) :=
    [date_filter_f,
     date_start_filter_f,
     date_end_filter_f,
     distance_min_filter_f,
     distance_max_filter_f,
     velocity_min_filter_f,
     velocity_max_filter_f,
     diameter_min_filter_f,
     diameter_max_filter_f,
     hazardous_filter_f]
  filter_arr.filterMap id

/-- The `limit` function:
`return iterator if not n else list(itertools.islice(iterator, 0, n))`.
`not n` is true exactly when `n` is `None` or `0`; `itertools.islice` raises
`ValueError` when its stop argument is negative, and otherwise takes the
first `n` elements. -/
def limit (iterator : List α) (n : Option Int) : Except PyErr (List α) :=
  match n with
  | none => .ok iterator
  | some m =>
    if m = 0 then .ok iterator
    else if m < 0 then .error .valueError
    else .ok (iterator.take m.toNat)

/-- Operational model of how many elements of its source `limit` reads at the
moment it is called, before the caller pulls any result. In the `not n`
branch the iterator is returned unread (0 elements). Otherwise
`list(itertools.islice(iterator, 0, n))` materialises the first
`min(n, length)` elements of the source into a list before `limit` returns;
a negative `n` makes `islice` raise before anything is read. -/
def limitReadAtCall (iterator : List α) (n : Option Int) : Nat :=
  match n with
  | none => 0
  | some m =>
    if m = 0 then 0
    else if m < 0 then 0
    else min m.toNat iterator.length

/-- The ten keyword arguments of `create_filters`, bundled so that one query's
criteria can be named as a single value. -/
structure Criteria where
  date : Option CADate
  start_date : Option CADate
  end_date : Option CADate
  distance_min : Option ℚ
  distance_max : Option ℚ
  velocity_min : Option ℚ
  velocity_max : Option ℚ
  diameter_min : Option ℚ
  diameter_max : Option ℚ
  hazardous : Option Bool
deriving DecidableEq

/-- `create_filters` applied to one bundled set of criteria. -/
def createFiltersOf (c : Criteria) : List AttributeFilter :=
  create_filters c.date c.start_date c.end_date c.distance_min c.distance_max
    c.velocity_min c.velocity_max c.diameter_min c.diameter_max c.hazardous

/-- Modelled from the spec: the query engine (the `query` method of the
repository's database module, which is not present under `src/`) combines the
predicates of a predicate set by short-circuit AND; a predicate evaluation
error aborts the query. This evaluates the whole set on one record. -/
def matchesAll (ps : List AttributeFilter) (approach : CloseApproach) :
    Except PyErr Bool :=
  match ps with
  | [] => .ok true
  | f :: rest =>
    match call f approach with
    | .error e => .error e
    | .ok true => matchesAll rest approach
    | .ok false => .ok false

/-- Modelled from the spec: the query engine keeps exactly the records for
which every predicate evaluates true; an evaluation error aborts the
filtering of the record sequence. -/
def queryRecords (ps : List AttributeFilter) (rs : List CloseApproach) :
    Except PyErr (List CloseApproach) :=
  match rs with
  | [] => .ok []
  | r :: rest =>
    match matchesAll ps r with
    | .error e => .error e
    | .ok true =>
      match queryRecords ps rest with
      | .error e => .error e
      | .ok l => .ok (r :: l)
    | .ok false => queryRecords ps rest

/-- The mutable state visible to one filter evaluation: the filter object and
the close-approach record (the record embeds its NEO). -/
structure EvalState where
  filt : AttributeFilter
  approach : CloseApproach
deriving DecidableEq

/-- Reading `self.operator`: a pure attribute read, state passed through. -/
def readOperator (s : EvalState) : CAOp × EvalState :=
  (s.filt.operator, s)

/-- Reading `self.value`: a pure attribute read, state passed through. -/
def readValue (s : EvalState) : PyVal × EvalState :=
  (s.filt.value, s)

/-- The `get` classmethod as a state-passing computation. Every branch of the
source only reads attributes of the approach (or of its NEO); no branch
assigns, so each returns the state it was given together with the read
value (or the raised exception). -/
def getSt (s : EvalState) : Except PyErr PyVal × EvalState :=
  match s.filt.kind with
  | .base => (.error .unsupportedCriterion, s)
  | .time => (.ok (.vdate s.approach.time.date), s)
  | .distance => (.ok (.vnum s.approach.distance), s)
  | .velocity => (.ok (.vnum s.approach.velocity), s)
  | .hazardous => (.ok (.vbool s.approach.neo.hazardous), s)
  | .diameter => (.ok (.vnum s.approach.neo.diameter), s)

/-- The `__call__` method as a state-passing computation, evaluated in
Python's order: read `self.operator`, evaluate `self.get(approach)` (an
exception propagates immediately), read `self.value`, then apply the
comparator. -/
def callSt (s : EvalState) : Except PyErr Bool × EvalState :=
  let p1 := readOperator s
  let p2 := getSt p1.2
  match p2.1 with
  | .error e => (.error e, p2.2)
  | .ok x =>
    let p3 := readValue p2.2
    (applyOp p1.1 x p3.1, p3.2)

/-- The local `date_filter_f` / `date_start_filter_f` / `date_end_filter_f`
lines of `create_filters`, parametric in the comparator. -/
def optTimeF (op : CAOp) (d : Option CADate) : Option AttributeFilter :=
  match d with
  | some x => some (TimeFilter op (.vdate x))
  | none => none

/-- The numeric `X_filter_f` lines of `create_filters`, parametric in the
subclass tag and comparator; a zero number is falsy in Python. -/
def optNumF (k : FilterKind) (op : CAOp) (q : Option ℚ) :
    Option AttributeFilter :=
  match q with
  | some x => if x = 0 then none else some (AttributeFilter.mk k op (.vnum x))
  | none => none

/-- The `hazardous_filter_f` line of `create_filters`: tested with
`is not None`, so `False` still produces a filter. -/
def optHazF (hz : Option Bool) : Option AttributeFilter :=
  match hz with
  | some b => some (HazardousFilter .eq (.vbool b))
  | none => none

/-- Whether a filter is of the given class with the given comparator. -/
def isKindOp (k : FilterKind) (o : CAOp) (f : AttributeFilter) : Bool :=
  decide (f.kind = k ∧ f.operator = o)

/-- Python truthiness of an optional number: `None` and `0` are falsy. -/
def numTruthy (q : Option ℚ) : Bool :=
  match q with
  | none => false
  | some x => decide (¬ x = 0)

/-- The position a filter of each class/comparator pair occupies in the fixed
emission order of `create_filters`; unused pairs map to 10. -/
def filterRank (f : AttributeFilter) : Nat :=
  match f.kind, f.operator with
  | .time, .eq => 0
  | .time, .ge => 1
  | .time, .le => 2
  | .distance, .ge => 3
  | .distance, .le => 4
  | .velocity, .ge => 5
  | .velocity, .le => 6
  | .diameter, .ge => 7
  | .diameter, .le => 8
  | .hazardous, .eq => 9
  | _, _ => 10

end NeoFilters

namespace ExcellentTrie

/-- A `TrieNode` of `src/excellent.py`: the `child_node` dictionary (embedded
as a partial map from characters to nodes) and the `isEnd` slot, `None`
unless a stored name ends at this node, in which case it holds the stored
object. -/
inductive TrieNode (V : Type) where
  | mk : (Char → Option (TrieNode V)) → Option V → TrieNode V

/-- The `child_node` field. -/
def TrieNode.child_node : TrieNode V → Char → Option (TrieNode V)
  | .mk c _ => c

/-- The `isEnd` field. -/
def TrieNode.isEnd : TrieNode V → Option V
  | .mk _ e => e

/-- A freshly constructed `TrieNode()`: empty `child_node`, `isEnd = None`. -/
def TrieNode.alloc : TrieNode V :=
  .mk (fun _ => none) none

/-- The inner loop of `_make_trie_tree` for one name: walk the characters,
creating a fresh node where `ch not in cur_node.child_node`, then store the
object in the final node's `isEnd`. -/
def insertName : TrieNode V → List Char → V → TrieNode V
  | .mk ch _e, [], v => .mk ch (some v)
  | .mk ch e, c :: cs, v =>
    let next : TrieNode V :=
      match ch c with
      | some t => t
      | none => TrieNode.alloc
    .mk (fun x => if x = c then some (insertName next cs v) else ch x) e

/-- One iteration of `_make_trie_tree` over `mapping_dict.items()`: a `None`
name is skipped (`continue`), any other name is inserted. -/
def insertEntry (tree : TrieNode V) (entry : Option (List Char) × V) :
    TrieNode V :=
  match entry.1 with
  | none => tree
  | some name => insertName tree name entry.2

/-- `Trie.__init__` plus `_make_trie_tree`: start from a fresh root and insert
every item of the mapping in iteration order. A Python dict's items have
pairwise distinct keys; the embedding takes the items as an association
list. -/
def makeTrieTree (mapping : List (Option (List Char) × V)) : TrieNode V :=
  mapping.foldl insertEntry TrieNode.alloc

/-- The `search` method: walk the characters, returning `None` at a missing
child, and return the final node's `isEnd`. -/
def search : TrieNode V → List Char → Option V
  | t, [] => t.isEnd
  | t, c :: cs =>
    match t.child_node c with
    | none => none
    | some next => search next cs

/-- The value associated to a name by the mapping, taking the last matching
item (for a Python dict the keys are distinct, so at most one item
matches). -/
def lastVal : List (Option (List Char) × V) → List Char → Option V
  | [], _ => none
  | e :: es, s =>
    match lastVal es s with
    | some v => some v
    | none => if e.1 = some s then some e.2 else none

end ExcellentTrie

namespace NeoFilters

/-- Filtering the identity over a cons splits into the head's contribution
followed by the tail's. -/
theorem filterMap_id_cons (o : Option α) (l : List (Option α)) :
    List.filterMap id (o :: l) = o.toList ++ List.filterMap id l := by
  cases o <;> simp

/-- The body of `create_filters`: the ten local option values, in order, fed
through the final comprehension. -/
theorem create_filters_opts (d sd ed : Option CADate) (m1 m2 v1 v2 i1 i2 : Option ℚ)
    (hz : Option Bool) :
    create_filters d sd ed m1 m2 v1 v2 i1 i2 hz =
      List.filterMap id
        [optTimeF .eq d, optTimeF .ge sd, optTimeF .le ed,
         optNumF .distance .ge m1, optNumF .distance .le m2,
         optNumF .velocity .ge v1, optNumF .velocity .le v2,
         optNumF .diameter .ge i1, optNumF .diameter .le i2,
         optHazF hz] := rfl

/-- `create_filters` as the concatenation of the ten per-criterion
contributions, in emission order. -/
theorem create_filters_append (d sd ed : Option CADate) (m1 m2 v1 v2 i1 i2 : Option ℚ)
    (hz : Option Bool) :
    create_filters d sd ed m1 m2 v1 v2 i1 i2 hz =
      (optTimeF .eq d).toList ++ (optTimeF .ge sd).toList ++ (optTimeF .le ed).toList ++
      (optNumF .distance .ge m1).toList ++ (optNumF .distance .le m2).toList ++
      (optNumF .velocity .ge v1).toList ++ (optNumF .velocity .le v2).toList ++
      (optNumF .diameter .ge i1).toList ++ (optNumF .diameter .le i2).toList ++
      (optHazF hz).toList := by
  rw [create_filters_opts]
  simp [filterMap_id_cons]

/-- C4: calling the base `AttributeFilter` (whose extraction rule is not
specialised) on any close approach, or calling its `get` directly, raises
`UnsupportedCriterionError`, and `__call__` propagates that error rather than
turning it into a boolean. -/
theorem base_get_unsupported (op : CAOp) (v : PyVal) (a : CloseApproach) :
    get FilterKind.base a = .error .unsupportedCriterion
    ∧ call ⟨FilterKind.base, op, v⟩ a = .error .unsupportedCriterion :=
  ⟨rfl, rfl⟩

/-- C5: `create_filters` with only `date = D` produces exactly the
date-equality predicate, and that predicate holds of a record exactly when
the calendar-date portion of the record's approach time equals `D`,
independently of the time-of-day fields. -/
theorem date_filter_exact (D : CADate) (r : CloseApproach) :
    create_filters (some D) none none none none none none none none none
        = [TimeFilter .eq (.vdate D)]
    ∧ (call (TimeFilter .eq (.vdate D)) r = .ok true ↔ r.time.date = D) := by
  refine ⟨rfl, ?_⟩
  simp [call, get, applyOp, TimeFilter]

/-- C3 counterexample: the claim says any `N ≤ 0` leaves the sequence
unchanged, but the code raises `ValueError` for a negative `N` (from
`itertools.islice`). -/
theorem limit_negative_raises :
    limit [(1 : Int), 2] (some (-1)) = Except.error PyErr.valueError := rfl

/-- C3 (amended): `limit` returns the sequence unchanged for `N` unspecified
or `N = 0`, returns the first `min(N, |S|)` elements in order for `N > 0`,
and raises `ValueError` for `N < 0`. -/
theorem limit_spec (S : List α) (m : Int) :
    limit S none = .ok S
    ∧ limit S (some 0) = .ok S
    ∧ (0 < m → limit S (some m) = .ok (S.take m.toNat))
    ∧ (m < 0 → limit S (some m) = .error PyErr.valueError) := by
  refine ⟨rfl, by simp [limit], ?_, ?_⟩
  · intro hm
    have h0 : ¬ m = 0 := by omega
    have h1 : ¬ m < 0 := by omega
    simp [limit, h0, h1]
  · intro hm
    have h0 : ¬ m = 0 := by omega
    simp [limit, h0, hm]

/-- C3 witness: the amended statement evaluated at a concrete sequence, for a
positive and for a negative count. -/
theorem limit_spec_w :
    limit [(1 : Int), 2, 3] (some 2) = Except.ok [1, 2]
    ∧ limit [(1 : Int), 2, 3] (some (-2)) = Except.error PyErr.valueError := by
  constructor
  · have h := (limit_spec [(1 : Int), 2, 3] 2).2.2.1 (by norm_num)
    simpa using h
  · exact (limit_spec [(1 : Int), 2, 3] (-2)).2.2.2 (by norm_num)

/-- C7: `limit` with a positive count performs eager read-ahead. Calling it
on a three-element source with `n = 2` reads two elements from the source at
call time (the `list(itertools.islice(...))` materialisation), before the
caller has pulled a single result, contradicting the no-read-ahead claim. -/
theorem limit_eager_readahead :
    limitReadAtCall [(1 : Int), 2, 3] (some 2) = 2
    ∧ limit [(1 : Int), 2, 3] (some 2) = Except.ok [1, 2] :=
  ⟨rfl, rfl⟩

/-- C8: building the predicate collection twice from identical criteria gives
collections that accept exactly the same records of any input sequence. -/
theorem create_filters_deterministic (c₁ c₂ : Criteria) (h : c₁ = c₂)
    (rs : List CloseApproach) :
    queryRecords (createFiltersOf c₁) rs = queryRecords (createFiltersOf c₂) rs := by
  rw [h]

/-- C8 witness: the determinism statement evaluated at concrete criteria and
a concrete one-record sequence. -/
theorem create_filters_deterministic_w :
    queryRecords
        (createFiltersOf ⟨none, none, none, none, none, none, none, none, none, some true⟩)
        [⟨⟨⟨2000, 1, 1⟩, 0, 0, 0⟩, 1, 1, ⟨true, 1⟩⟩]
      = queryRecords
        (createFiltersOf ⟨none, none, none, none, none, none, none, none, none, some true⟩)
        [⟨⟨⟨2000, 1, 1⟩, 0, 0, 0⟩, 1, 1, ⟨true, 1⟩⟩] :=
  create_filters_deterministic _ _ rfl _

/-- C9: evaluating a filter on a record, modelled with the filter and the
record (including its NEO) as explicit state, returns the same result as the
pure evaluation and leaves the state — every field of the filter and of the
record — exactly as it was. -/
theorem call_no_mutation (f : AttributeFilter) (a : CloseApproach) :
    callSt ⟨f, a⟩ = (call f a, ⟨f, a⟩) := by
  obtain ⟨k, op, v⟩ := f
  cases k <;> rfl

end NeoFilters

namespace NeoFilters

/-- Counting filters of a given class/comparator in a time block. -/
theorem countP_isKindOp_optTimeF (k : FilterKind) (o op : CAOp) (d : Option CADate) :
    (optTimeF op d).toList.countP (isKindOp k o) =
      if FilterKind.time = k ∧ op = o ∧ d.isSome = true then 1 else 0 := by
  cases d with
  | none => simp [optTimeF]
  | some x =>
    by_cases hk : FilterKind.time = k
    · by_cases ho : op = o
      · simp [optTimeF, TimeFilter, isKindOp, hk, ho]
      · simp [optTimeF, TimeFilter, isKindOp, hk, ho]
    · simp [optTimeF, TimeFilter, isKindOp, hk]

/-- Counting filters of a given class/comparator in a numeric block. -/
theorem countP_isKindOp_optNumF (k : FilterKind) (o : CAOp) (k0 : FilterKind)
    (op : CAOp) (q : Option ℚ) :
    (optNumF k0 op q).toList.countP (isKindOp k o) =
      if k0 = k ∧ op = o ∧ numTruthy q = true then 1 else 0 := by
  cases q with
  | none => simp [optNumF, numTruthy]
  | some x =>
    by_cases hx : x = 0
    · simp [optNumF, numTruthy, hx]
    · by_cases hk : k0 = k
      · by_cases ho : op = o
        · simp [optNumF, numTruthy, isKindOp, hx, hk, ho]
        · simp [optNumF, numTruthy, isKindOp, hx, hk, ho]
      · simp [optNumF, numTruthy, isKindOp, hx, hk]

/-- Counting filters of a given class/comparator in the hazardous block. -/
theorem countP_isKindOp_optHazF (k : FilterKind) (o : CAOp) (hz : Option Bool) :
    (optHazF hz).toList.countP (isKindOp k o) =
      if FilterKind.hazardous = k ∧ CAOp.eq = o ∧ hz.isSome = true then 1 else 0 := by
  cases hz with
  | none => simp [optHazF]
  | some b =>
    by_cases hk : FilterKind.hazardous = k
    · by_cases ho : CAOp.eq = o
      · simp [optHazF, HazardousFilter, isKindOp, hk, ho]
      · simp [optHazF, HazardousFilter, isKindOp, hk, ho]
    · simp [optHazF, HazardousFilter, isKindOp, hk]

/-- The size of a time block. -/
theorem length_toList_optTimeF (op : CAOp) (d : Option CADate) :
    (optTimeF op d).toList.length = if d.isSome = true then 1 else 0 := by
  cases d <;> simp [optTimeF]

/-- The size of a numeric block. -/
theorem length_toList_optNumF (k0 : FilterKind) (op : CAOp) (q : Option ℚ) :
    (optNumF k0 op q).toList.length = if numTruthy q = true then 1 else 0 := by
  cases q with
  | none => simp [optNumF, numTruthy]
  | some x =>
    by_cases hx : x = 0 <;> simp [optNumF, numTruthy, hx]

/-- The size of the hazardous block. -/
theorem length_toList_optHazF (hz : Option Bool) :
    (optHazF hz).toList.length = if hz.isSome = true then 1 else 0 := by
  cases hz <;> simp [optHazF]

/-- C1 counterexample: the claim says a specified criterion with value
numeric zero still produces a predicate, but `create_filters` with
`distance_max = 0` (and everything else omitted) produces no predicate at
all, because the source tests Python truthiness and `0` is falsy. -/
theorem create_filters_zero_distance_max :
    create_filters none none none none (some 0) none none none none none = [] := by
  simp [create_filters]

/-- C1 (amended): for every combination of the ten criteria,
`create_filters` emits exactly one predicate for each criterion supplied
with a truthy value — any present date, any present hazardous flag
(including `False`), a present and nonzero numeric bound — and no predicate
for a criterion that is omitted or supplied with a falsy value (`None` or
numeric zero); no criterion value causes an error. Each of the ten
class/comparator counts, and the total length, are stated. -/
theorem create_filters_per_criterion (d sd ed : Option CADate)
    (m1 m2 v1 v2 i1 i2 : Option ℚ) (hz : Option Bool) :
    ((create_filters d sd ed m1 m2 v1 v2 i1 i2 hz).countP (isKindOp .time .eq)
        = if d.isSome = true then 1 else 0)
    ∧ ((create_filters d sd ed m1 m2 v1 v2 i1 i2 hz).countP (isKindOp .time .ge)
        = if sd.isSome = true then 1 else 0)
    ∧ ((create_filters d sd ed m1 m2 v1 v2 i1 i2 hz).countP (isKindOp .time .le)
        = if ed.isSome = true then 1 else 0)
    ∧ ((create_filters d sd ed m1 m2 v1 v2 i1 i2 hz).countP (isKindOp .distance .ge)
        = if numTruthy m1 = true then 1 else 0)
    ∧ ((create_filters d sd ed m1 m2 v1 v2 i1 i2 hz).countP (isKindOp .distance .le)
        = if numTruthy m2 = true then 1 else 0)
    ∧ ((create_filters d sd ed m1 m2 v1 v2 i1 i2 hz).countP (isKindOp .velocity .ge)
        = if numTruthy v1 = true then 1 else 0)
    ∧ ((create_filters d sd ed m1 m2 v1 v2 i1 i2 hz).countP (isKindOp .velocity .le)
        = if numTruthy v2 = true then 1 else 0)
    ∧ ((create_filters d sd ed m1 m2 v1 v2 i1 i2 hz).countP (isKindOp .diameter .ge)
        = if numTruthy i1 = true then 1 else 0)
    ∧ ((create_filters d sd ed m1 m2 v1 v2 i1 i2 hz).countP (isKindOp .diameter .le)
        = if numTruthy i2 = true then 1 else 0)
    ∧ ((create_filters d sd ed m1 m2 v1 v2 i1 i2 hz).countP (isKindOp .hazardous .eq)
        = if hz.isSome = true then 1 else 0)
    ∧ ((create_filters d sd ed m1 m2 v1 v2 i1 i2 hz).length
        = (if d.isSome = true then 1 else 0) + (if sd.isSome = true then 1 else 0)
          + (if ed.isSome = true then 1 else 0) + (if numTruthy m1 = true then 1 else 0)
          + (if numTruthy m2 = true then 1 else 0) + (if numTruthy v1 = true then 1 else 0)
          + (if numTruthy v2 = true then 1 else 0) + (if numTruthy i1 = true then 1 else 0)
          + (if numTruthy i2 = true then 1 else 0) + (if hz.isSome = true then 1 else 0)) := by
  simp only [create_filters_append, List.countP_append, List.length_append,
    countP_isKindOp_optTimeF, countP_isKindOp_optNumF, countP_isKindOp_optHazF,
    length_toList_optTimeF, length_toList_optNumF, length_toList_optHazF]
  refine ⟨?_, ?_, ?_, ?_, ?_, ?_, ?_, ?_, ?_, ?_, ?_⟩ <;> simp

end NeoFilters

namespace NeoFilters

/-- Every filter a time block emits is a `TimeFilter`. -/
theorem kind_of_mem_optTimeF (op : CAOp) (d : Option CADate) (f : AttributeFilter)
    (h : f ∈ (optTimeF op d).toList) : f.kind = FilterKind.time := by
  cases d with
  | none => simp [optTimeF] at h
  | some x =>
    simp [optTimeF, TimeFilter] at h
    subst h
    rfl

/-- Every filter a numeric block emits has that block's class. -/
theorem kind_of_mem_optNumF (k0 : FilterKind) (op : CAOp) (q : Option ℚ)
    (f : AttributeFilter) (h : f ∈ (optNumF k0 op q).toList) : f.kind = k0 := by
  cases q with
  | none => simp [optNumF] at h
  | some x =>
    by_cases hx : x = 0
    · simp [optNumF, hx] at h
    · simp [optNumF, hx] at h
      subst h
      rfl

/-- C2: the hazardous criterion is three-state. With `hazardous` unspecified
the collection holds no hazardous predicate; with `hazardous = b` (either
`True` or `False` — `False` is not collapsed into unspecified, since the
source tests `is not None`) the collection holds the equality predicate on
`b`, and that predicate accepts a record exactly when the record's NEO
hazardous flag equals `b`. -/
theorem hazardous_tristate (d sd ed : Option CADate) (m1 m2 v1 v2 i1 i2 : Option ℚ) :
    ((create_filters d sd ed m1 m2 v1 v2 i1 i2 none).countP
        (fun f => decide (f.kind = FilterKind.hazardous))) = 0
    ∧ (∀ b : Bool,
        HazardousFilter .eq (.vbool b) ∈ create_filters d sd ed m1 m2 v1 v2 i1 i2 (some b))
    ∧ (∀ b : Bool, ∀ a : CloseApproach,
        (call (HazardousFilter .eq (.vbool b)) a = .ok true ↔ a.neo.hazardous = b)) := by
  refine ⟨?_, ?_, ?_⟩
  · rw [List.countP_eq_zero]
    intro f hf
    rw [create_filters_append] at hf
    simp only [List.mem_append, or_assoc] at hf
    rcases hf with h | h | h | h | h | h | h | h | h | h
    · have := kind_of_mem_optTimeF _ _ _ h; simp [this]
    · have := kind_of_mem_optTimeF _ _ _ h; simp [this]
    · have := kind_of_mem_optTimeF _ _ _ h; simp [this]
    · have := kind_of_mem_optNumF _ _ _ _ h; simp [this]
    · have := kind_of_mem_optNumF _ _ _ _ h; simp [this]
    · have := kind_of_mem_optNumF _ _ _ _ h; simp [this]
    · have := kind_of_mem_optNumF _ _ _ _ h; simp [this]
    · have := kind_of_mem_optNumF _ _ _ _ h; simp [this]
    · have := kind_of_mem_optNumF _ _ _ _ h; simp [this]
    · simp [optHazF] at h
  · intro b
    rw [create_filters_append]
    simp [optHazF]
  · intro b a
    simp [call, get, applyOp, HazardousFilter]

/-- A block whose every filter has rank `r` extends a sublist below a cons of
`r`. -/
theorem toList_map_sub (o : Option AttributeFilter) (r : Nat)
    (h : ∀ f, o = some f → filterRank f = r) (l1 l2 : List Nat)
    (hsub : List.Sublist l1 l2) :
    List.Sublist (o.toList.map filterRank ++ l1) (r :: l2) := by
  cases o with
  | none => exact hsub.cons r
  | some f => simpa [h f rfl] using hsub.cons₂ r

/-- A final block whose every filter has rank `r` is a sublist of `[r]`. -/
theorem toList_map_sub_last (o : Option AttributeFilter) (r : Nat)
    (h : ∀ f, o = some f → filterRank f = r) :
    List.Sublist (o.toList.map filterRank) [r] := by
  cases o with
  | none => exact List.nil_sublist _
  | some f => simp [h f rfl]

/-- C6: for every combination of criteria the predicates of
`create_filters` appear in the fixed deterministic order — date equality,
date ≥ start, date ≤ end, distance ≥ min, distance ≤ max, velocity ≥ min,
velocity ≤ max, diameter ≥ min, diameter ≤ max, hazardous — with the
unemitted ones skipped: the ranks of the output form a sublist of
`[0, …, 9]`. -/
theorem create_filters_ordered (d sd ed : Option CADate)
    (m1 m2 v1 v2 i1 i2 : Option ℚ) (hz : Option Bool) :
    List.Sublist ((create_filters d sd ed m1 m2 v1 v2 i1 i2 hz).map filterRank)
      [0, 1, 2, 3, 4, 5, 6, 7, 8, 9] := by
  rw [create_filters_append]
  simp only [List.map_append, List.append_assoc]
  refine toList_map_sub _ 0 ?_ _ _ (toList_map_sub _ 1 ?_ _ _ (toList_map_sub _ 2 ?_ _ _
    (toList_map_sub _ 3 ?_ _ _ (toList_map_sub _ 4 ?_ _ _ (toList_map_sub _ 5 ?_ _ _
    (toList_map_sub _ 6 ?_ _ _ (toList_map_sub _ 7 ?_ _ _ (toList_map_sub _ 8 ?_ _ _
    (toList_map_sub_last _ 9 ?_)))))))))
  · intro f hf
    cases d with
    | none => simp [optTimeF] at hf
    | some x => simp [optTimeF, TimeFilter] at hf; subst hf; rfl
  · intro f hf
    cases sd with
    | none => simp [optTimeF] at hf
    | some x => simp [optTimeF, TimeFilter] at hf; subst hf; rfl
  · intro f hf
    cases ed with
    | none => simp [optTimeF] at hf
    | some x => simp [optTimeF, TimeFilter] at hf; subst hf; rfl
  · intro f hf
    cases m1 with
    | none => simp [optNumF] at hf
    | some x =>
      by_cases hx : x = 0
      · simp [optNumF, hx] at hf
      · simp [optNumF, hx] at hf; subst hf; rfl
  · intro f hf
    cases m2 with
    | none => simp [optNumF] at hf
    | some x =>
      by_cases hx : x = 0
      · simp [optNumF, hx] at hf
      · simp [optNumF, hx] at hf; subst hf; rfl
  · intro f hf
    cases v1 with
    | none => simp [optNumF] at hf
    | some x =>
      by_cases hx : x = 0
      · simp [optNumF, hx] at hf
      · simp [optNumF, hx] at hf; subst hf; rfl
  · intro f hf
    cases v2 with
    | none => simp [optNumF] at hf
    | some x =>
      by_cases hx : x = 0
      · simp [optNumF, hx] at hf
      · simp [optNumF, hx] at hf; subst hf; rfl
  · intro f hf
    cases i1 with
    | none => simp [optNumF] at hf
    | some x =>
      by_cases hx : x = 0
      · simp [optNumF, hx] at hf
      · simp [optNumF, hx] at hf; subst hf; rfl
  · intro f hf
    cases i2 with
    | none => simp [optNumF] at hf
    | some x =>
      by_cases hx : x = 0
      · simp [optNumF, hx] at hf
      · simp [optNumF, hx] at hf; subst hf; rfl
  · intro f hf
    cases hz with
    | none => simp [optHazF] at hf
    | some b => simp [optHazF, HazardousFilter] at hf; subst hf; rfl

end NeoFilters

namespace ExcellentTrie

/-- Searching a freshly allocated node finds nothing. -/
theorem search_alloc (s : List Char) :
    search (TrieNode.alloc : TrieNode V) s = none := by
  cases s <;> rfl

/-- Inserting one name changes the result of `search` exactly at that name
and nowhere else. -/
theorem search_insertName (k : List Char) :
    ∀ (t : TrieNode V) (v : V) (s : List Char),
    search (insertName t k v) s = if s = k then some v else search t s := by
  induction k with
  | nil =>
    intro t v s
    obtain ⟨ch, e⟩ := t
    cases s with
    | nil => simp [insertName, search, TrieNode.isEnd]
    | cons c cs => simp [insertName, search, TrieNode.child_node]
  | cons c cs ih =>
    intro t v s
    obtain ⟨ch, e⟩ := t
    cases s with
    | nil => simp [insertName, search, TrieNode.isEnd]
    | cons c' cs' =>
      by_cases hc : c' = c
      · subst hc
        cases hch : ch c' with
        | none =>
          simp [insertName, search, TrieNode.child_node, hch, ih, search_alloc]
        | some u =>
          simp [insertName, search, TrieNode.child_node, hch, ih]
      · simp [insertName, search, TrieNode.child_node, hc]

/-- Folding the remaining entries over any start tree searches to the last
matching entry, falling back to the start tree. -/
theorem search_foldl (es : List (Option (List Char) × V)) :
    ∀ (t : TrieNode V) (s : List Char),
    search (es.foldl insertEntry t) s =
      match lastVal es s with
      | some v => some v
      | none => search t s := by
  induction es with
  | nil => intro t s; rfl
  | cons e es ih =>
    intro t s
    rw [List.foldl_cons, ih]
    have hstep : search (insertEntry t e) s
        = if e.1 = some s then some e.2 else search t s := by
      obtain ⟨k, v⟩ := e
      cases k with
      | none => simp [insertEntry]
      | some name =>
        simp only [insertEntry]
        rw [search_insertName]
        by_cases h : s = name
        · simp [h]
        · have h2 : ¬ ((some name : Option (List Char)) = some s) := by
            simp only [Option.some.injEq]
            exact fun hh => h hh.symm
          simp [h, h2]
    rw [hstep]
    cases hlv : lastVal es s with
    | some v => simp [lastVal, hlv]
    | none =>
      simp only [lastVal, hlv]
      by_cases he : e.1 = some s <;> simp [he]

/-- Searching the built trie is looking up the last matching entry of the
mapping. -/
theorem search_makeTrieTree (es : List (Option (List Char) × V)) (s : List Char) :
    search (makeTrieTree es) s = lastVal es s := by
  rw [makeTrieTree, search_foldl]
  cases hlv : lastVal es s with
  | some v => simp
  | none => simp [search_alloc]

/-- A name carried by no entry has no last matching entry. -/
theorem lastVal_of_not_mem (es : List (Option (List Char) × V)) (s : List Char)
    (h : ∀ v : V, (some s, v) ∉ es) : lastVal es s = none := by
  induction es with
  | nil => rfl
  | cons e es ih =>
    obtain ⟨k, v⟩ := e
    have h1 : ∀ w : V, (some s, w) ∉ es :=
      fun w hw => h w (List.mem_cons_of_mem _ hw)
    have h2 : ¬ k = some s := by
      intro he
      subst he
      exact h v (List.mem_cons_self _ _)
    simp [lastVal, ih h1, h2]

/-- An association of a non-`None` key contributes that key to the key
list. -/
theorem not_mem_of_not_key (es : List (Option (List Char) × V)) (s : List Char)
    (h : ¬ s ∈ es.filterMap Prod.fst) : ∀ w : V, (some s, w) ∉ es := by
  intro w hw
  exact h (List.mem_filterMap.mpr ⟨(some s, w), hw, rfl⟩)

/-- Dropping the first entry preserves distinctness of the keys. -/
theorem nodup_tail_filterMap (k : Option (List Char)) (w : V)
    (es : List (Option (List Char) × V))
    (hnd : (((k, w) :: es).filterMap Prod.fst).Nodup) :
    (es.filterMap Prod.fst).Nodup := by
  cases k with
  | none => exact hnd
  | some x => exact (List.nodup_cons.mp hnd).2

/-- With pairwise distinct keys, the last matching entry of a present key is
its unique association. -/
theorem lastVal_mem_nodup (es : List (Option (List Char) × V)) (s : List Char) (v : V)
    (hnd : (es.filterMap Prod.fst).Nodup) (hmem : (some s, v) ∈ es) :
    lastVal es s = some v := by
  induction es with
  | nil => cases hmem
  | cons e es ih =>
    obtain ⟨k, w⟩ := e
    rcases List.mem_cons.mp hmem with heq | hmem2
    · obtain ⟨hk, hw⟩ : some s = k ∧ v = w := by simpa [Prod.mk.injEq] using heq
      subst hk
      subst hw
      have hnotin : ¬ s ∈ es.filterMap Prod.fst := (List.nodup_cons.mp hnd).1
      have hnone : lastVal es s = none :=
        lastVal_of_not_mem es s (not_mem_of_not_key es s hnotin)
      simp [lastVal, hnone]
    · have hnd2 := nodup_tail_filterMap k w es hnd
      have hlv := ih hnd2 hmem2
      simp [lastVal, hlv]

/-- C10: for a mapping with distinct string keys (`None` keys skipped) and
non-`None` values, `Trie(d).search(s)` returns the value the mapping
associates to `s` when `s` is a key, and `None` when `s` is not a key —
including when `s` is a proper prefix of a stored key or extends past one. -/
theorem trie_search_correct (d : List (Option (List Char) × V)) (s : List Char)
    (hnd : (d.filterMap Prod.fst).Nodup) :
    (∀ v : V, (some s, v) ∈ d → search (makeTrieTree d) s = some v)
    ∧ ((∀ v : V, (some s, v) ∉ d) → search (makeTrieTree d) s = none) := by
  constructor
  · intro v hv
    rw [search_makeTrieTree]
    exact lastVal_mem_nodup d s v hnd hv
  · intro hnone
    rw [search_makeTrieTree]
    exact lastVal_of_not_mem d s hnone

/-- C10 witness: a concrete trie holding the names `a` and `ab`; searching
`ab` finds its stored object. -/
theorem trie_search_correct_w :
    search (makeTrieTree [(some ['a'], 1), (some ['a', 'b'], 2), (none, 7)]) ['a', 'b']
      = some 2 :=
  (trie_search_correct _ _ (by decide)).1 2 (by decide)

end ExcellentTrie
